import Mathlib

/-!
Verification of the nine-realities-netcode core against its specification.

The development shallowly embeds three source modules:
  * the client prediction / rollback / reconciliation engine
    (class ClientPrediction),
  * the reliable-delivery packet protocol (class NetworkProtocol),
  * the clock synchronisation subsystem (class TimeSync).

JavaScript numbers are modelled as real numbers where the source computes
square roots (divergence metric) and as rationals elsewhere; wall-clock
reads (Date.now) are passed as explicit arguments.
-/

namespace Netcode

/- ================= ClientPrediction (prediction / rollback) ============ -/

/-- User input, e.g. moveX = 1, moveY = 0. -/
structure Input where
  moveX : ℝ
  moveY : ℝ

/-- The mutable physics state: position and velocity. -/
structure PState where
  x : ℝ
  y : ℝ
  velocityX : ℝ
  velocityY : ℝ

/-- A server snapshot: authoritative state plus the server tick. -/
structure Snapshot where
  x : ℝ
  y : ℝ
  velocityX : ℝ
  velocityY : ℝ
  tick : ℤ

/-- One entry of the input buffer: tick, input, timestamp. -/
structure BufferedInput where
  tick : ℤ
  input : Input
  timestamp : ℚ

/-- The fields of the ClientPrediction class. -/
structure ClientPrediction where
  predictedState : PState
  serverState : Snapshot
  inputBuffer : List BufferedInput
  clientTick : ℤ
  rtt : ℤ
  reconciliationThreshold : ℝ

/-- The constructor of ClientPrediction. -/
noncomputable def initClientPrediction : ClientPrediction :=
  { predictedState := ⟨0, 0, 0, 0⟩
    serverState := ⟨0, 0, 0, 0, 0⟩
    inputBuffer := []
    clientTick := 0
    rtt := 5
    reconciliationThreshold := 1/10 }

/-- The hardcoded movement speed of updateState. -/
noncomputable def speed : ℝ := 5

/-- updateState: simple movement physics applied to a state. -/
noncomputable def updateState (state : PState) (input : Input) : PState :=
  let velocityX := input.moveX * speed
  let velocityY := input.moveY * speed
  { x := state.x + velocityX
    y := state.y + velocityY
    velocityX := velocityX
    velocityY := velocityY }

/-- applyInput: store the input in the buffer, apply it to the predicted
state immediately, send to server (a log in the source), bump the tick. -/
noncomputable def applyInput (now : ℚ) (input : Input) (s : ClientPrediction) :
    ClientPrediction :=
  { s with
    inputBuffer := s.inputBuffer ++ [⟨s.clientTick, input, now⟩]
    predictedState := updateState s.predictedState input
    clientTick := s.clientTick + 1 }

/-- calculateDivergence: Euclidean distance between predicted and server
state. -/
noncomputable def calculateDivergence (predicted : PState) (server : Snapshot) : ℝ :=
  let dx := predicted.x - server.x
  let dy := predicted.y - server.y
  Real.sqrt (dx * dx + dy * dy)

/-- The state fields carried by a snapshot (the spread of the snapshot
object into the predicted state). -/
noncomputable def snapshotState (snap : Snapshot) : PState :=
  ⟨snap.x, snap.y, snap.velocityX, snap.velocityY⟩

/-- rollbackAndReplay: rewind the predicted state to the snapshot and
re-apply every buffered input whose tick is greater than the snapshot
tick, in buffer order. -/
noncomputable def rollbackAndReplay (s : ClientPrediction) (snap : Snapshot) :
    ClientPrediction :=
  let unacknowledged := s.inputBuffer.filter (fun b => snap.tick < b.tick)
  { s with
    predictedState :=
      unacknowledged.foldl (fun st b => updateState st b.input) (snapshotState snap) }

/-- The blend factor computed by smoothCorrection. -/
noncomputable def smoothBlendFactor (s : ClientPrediction) (divergence : ℝ) : ℝ :=
  min (divergence / s.reconciliationThreshold) 1 * (1/10)

/-- smoothCorrection: lerp the predicted position toward the server state
by the blend factor; velocities are untouched. -/
noncomputable def smoothCorrection (s : ClientPrediction) (divergence : ℝ) :
    ClientPrediction :=
  let blendFactor := smoothBlendFactor s divergence
  { s with
    predictedState :=
      { s.predictedState with
        x := s.predictedState.x + (s.serverState.x - s.predictedState.x) * blendFactor
        y := s.predictedState.y + (s.serverState.y - s.predictedState.y) * blendFactor } }

/-- onServerSnapshot: store the snapshot as authoritative state, compute
divergence, roll back and replay when it exceeds the reconciliation
threshold and otherwise smooth-correct, then prune acknowledged inputs. -/
noncomputable def onServerSnapshot (s : ClientPrediction) (snap : Snapshot) :
    ClientPrediction :=
  let s1 : ClientPrediction := { s with serverState := snap }
  let divergence := calculateDivergence s1.predictedState s1.serverState
  let s2 :=
    if s1.reconciliationThreshold < divergence then rollbackAndReplay s1 snap
    else smoothCorrection s1 divergence
  { s2 with inputBuffer := s2.inputBuffer.filter (fun b => snap.tick < b.tick) }

/-- A sequence of applyInput calls, each with its timestamp. -/
noncomputable def applyInputs (s : ClientPrediction) (l : List (Input × ℚ)) :
    ClientPrediction :=
  l.foldl (fun st p => applyInput p.2 p.1 st) s

/-- Concrete client used to witness the rollback-branch fold: predicted
state after two right-moves, one unacknowledged input at tick 1. -/
noncomputable def c1wState : ClientPrediction :=
  { predictedState := ⟨10, 0, 5, 0⟩
    serverState := ⟨0, 0, 0, 0, 0⟩
    inputBuffer := [⟨1, ⟨1, 0⟩, 0⟩]
    clientTick := 2
    rtt := 5
    reconciliationThreshold := 1/10 }

/-- Snapshot at tick 0 far from the prediction (divergence 5). -/
noncomputable def c1wSnap : Snapshot := ⟨5, 0, 0, 0, 0⟩

/-- Concrete client whose buffer holds inputs at ticks 1 and 2: used to
show the smooth branch does not replay buffered inputs. -/
noncomputable def c1CounterState : ClientPrediction :=
  { predictedState := ⟨10, 0, 5, 0⟩
    serverState := ⟨0, 0, 0, 0, 0⟩
    inputBuffer := [⟨1, ⟨1, 0⟩, 0⟩, ⟨2, ⟨1, 0⟩, 1⟩]
    clientTick := 3
    rtt := 5
    reconciliationThreshold := 1/10 }

/-- Snapshot at tick 0 close to the prediction (divergence one twentieth). -/
noncomputable def c1CounterSnap : Snapshot := ⟨201/20, 0, 5, 0, 0⟩

/-- Concrete client whose last applied snapshot tick is 5. -/
noncomputable def staleState : ClientPrediction :=
  { predictedState := ⟨10, 0, 5, 0⟩
    serverState := ⟨10, 0, 5, 0, 5⟩
    inputBuffer := []
    clientTick := 2
    rtt := 5
    reconciliationThreshold := 1/10 }

/-- A stale snapshot: its tick 3 is below the last applied tick 5. -/
noncomputable def staleSnap : Snapshot := ⟨0, 0, 0, 0, 3⟩

/-- The blend-scenario client: default construction with the
reconciliation threshold of the scenario, namely 5. -/
noncomputable def c9Init : ClientPrediction :=
  { initClientPrediction with reconciliationThreshold := 5 }

/-- The blend-scenario client after right-moves at ticks 0 and 1. -/
noncomputable def c9AfterInputs : ClientPrediction :=
  applyInput 1 ⟨1, 0⟩ (applyInput 0 ⟨1, 0⟩ c9Init)

/-- The blend-scenario snapshot: tick 0, x = 9.5. -/
noncomputable def c9Snap : Snapshot := ⟨19/2, 0, 5, 0, 0⟩

/-- Concrete client with nonzero velocities, for the small-divergence
frame-effect witness. -/
noncomputable def c10State : ClientPrediction :=
  { initClientPrediction with predictedState := ⟨0, 0, 3, 4⟩ }

/-- A snapshot that coincides with the predicted position of c10State. -/
noncomputable def c10Snap : Snapshot := ⟨0, 0, 0, 0, 0⟩

/- ================= NetworkProtocol (reliable delivery) ================= -/

/-- A protocol packet as built by createPacket; the payload type is
abstract. -/
structure Packet (α : Type) where
  type : ℕ
  sequenceId : ℕ
  payload : α
  requiresAck : Bool
  timestamp : ℚ
  deriving DecidableEq

/-- An ACK packet as built by createAck. -/
structure AckPacket where
  type : ℕ
  sequenceId : ℕ
  timestamp : ℚ
  deriving DecidableEq

/-- One value of the pendingAcks map: packet, timestamp, retries. -/
structure PendingEntry (α : Type) where
  packet : Packet α
  timestamp : ℚ
  retries : ℕ
  deriving DecidableEq

/-- The result object returned by processPacket on first receipt. -/
structure ProcessResult (α : Type) where
  payload : α
  ackPacket : Option AckPacket
  deriving DecidableEq

/-- The fields of the NetworkProtocol class.  The pendingAcks Map and the
receivedSequences Set are modelled as lists in insertion order. -/
structure NetworkProtocol (α : Type) where
  nextSequenceId : ℕ
  pendingAcks : List (ℕ × PendingEntry α)
  receivedSequences : List ℕ
  maxRetries : ℕ
  ackTimeout : ℚ
  maxPacketSize : ℕ
  bytesSent : ℕ
  bytesReceived : ℕ
  packetsLost : ℕ
  deriving DecidableEq

/-- The constructor of NetworkProtocol. -/
def initNetworkProtocol (α : Type) : NetworkProtocol α :=
  { nextSequenceId := 0
    pendingAcks := []
    receivedSequences := []
    maxRetries := 3
    ackTimeout := 100
    maxPacketSize := 1400
    bytesSent := 0
    bytesReceived := 0
    packetsLost := 0 }

/-- The CLIENT_ACK message type tag, 0x04. -/
def clientAckType : ℕ := 4

/-- createAck: an ACK packet for a sequence id, stamped with the current
time. -/
def createAck (now : ℚ) (sequenceId : ℕ) : AckPacket :=
  ⟨clientAckType, sequenceId, now⟩

/-- createPacket: build the base packet, advance the sequence counter and,
when an ack is required, track the packet for retransmission. -/
def createPacket (now : ℚ) (ptype : ℕ) (payload : α) (requiresAck : Bool)
    (s : NetworkProtocol α) : Packet α × NetworkProtocol α :=
  let packet : Packet α := ⟨ptype, s.nextSequenceId, payload, requiresAck, now⟩
  let s1 := { s with nextSequenceId := s.nextSequenceId + 1 }
  if requiresAck then
    (packet,
      { s1 with pendingAcks := s1.pendingAcks ++ [(packet.sequenceId, ⟨packet, now, 0⟩)] })
  else (packet, s1)

/-- Ascending insertion used to model the JavaScript numeric sort of the
seen-sequence set. -/
def insertAsc (x : ℕ) : List ℕ → List ℕ
  | [] => [x]
  | y :: ys => if x ≤ y then x :: y :: ys else y :: insertAsc x ys

/-- Ascending sort used to model the JavaScript numeric sort. -/
def sortAsc (l : List ℕ) : List ℕ := l.foldr insertAsc []

/-- processPacket: drop duplicates (returning null), record the sequence
id, trim the seen-set once it exceeds 1000 entries by deleting the 500
smallest, and answer with the payload plus an ack when one is required. -/
def processPacket (now : ℚ) (packet : Packet α) (s : NetworkProtocol α) :
    NetworkProtocol α × Option (ProcessResult α) :=
  if packet.sequenceId ∈ s.receivedSequences then (s, none)
  else
    let received1 := s.receivedSequences ++ [packet.sequenceId]
    let received2 :=
      if 1000 < received1.length then
        let toDelete := (sortAsc received1).take 500
        received1.filter (fun x => ¬ x ∈ toDelete)
      else received1
    let s1 := { s with receivedSequences := received2 }
    if packet.requiresAck then
      (s1, some ⟨packet.payload, some (createAck now packet.sequenceId)⟩)
    else (s1, some ⟨packet.payload, none⟩)

/-- processAck: remove an acknowledged sequence id from the pending table
(idempotent when the entry is already gone). -/
def processAck (sequenceId : ℕ) (s : NetworkProtocol α) : NetworkProtocol α :=
  { s with pendingAcks := s.pendingAcks.filter (fun kv => kv.1 ≠ sequenceId) }

/-- The body of the getRetransmissions loop over the pending entries, in
iteration order: returns the surviving entries, the packets to retransmit
and the number of entries given up on. -/
def sweepList (now timeout : ℚ) (maxR : ℕ) :
    List (ℕ × PendingEntry α) → List (ℕ × PendingEntry α) × List (Packet α) × ℕ
  | [] => ([], [], 0)
  | kv :: rest =>
    let r := sweepList now timeout maxR rest
    if timeout < now - kv.2.timestamp then
      if kv.2.retries < maxR then
        ((kv.1, ⟨kv.2.packet, now, kv.2.retries + 1⟩) :: r.1, kv.2.packet :: r.2.1, r.2.2)
      else (r.1, r.2.1, r.2.2 + 1)
    else (kv :: r.1, r.2.1, r.2.2)

/-- getRetransmissions: for every pending entry older than ackTimeout,
retransmit while retries remain, otherwise evict it and count it lost. -/
def getRetransmissions (now : ℚ) (s : NetworkProtocol α) :
    NetworkProtocol α × List (Packet α) :=
  let r := sweepList now s.ackTimeout s.maxRetries s.pendingAcks
  ({ s with pendingAcks := r.1, packetsLost := s.packetsLost + r.2.2 }, r.2.1)

/-- A sequence of getRetransmissions sweeps at the given times, collecting
the per-sweep retransmission lists. -/
def runSweeps (times : List ℚ) (s : NetworkProtocol α) :
    NetworkProtocol α × List (List (Packet α)) :=
  match times with
  | [] => (s, [])
  | t :: ts =>
    let r1 := getRetransmissions t s
    let r2 := runSweeps ts r1.1
    (r2.1, r1.2 :: r2.2)

/-- The invariants of the pendingAcks map: its keys are distinct (it is a
JavaScript Map) and each tracked packet carries its key as sequence id
(createPacket stores packets under their own sequence id). -/
def PendingInv (l : List (ℕ × PendingEntry α)) : Prop :=
  (l.map Prod.fst).Nodup ∧ ∀ kv ∈ l, kv.2.packet.sequenceId = kv.1

/-- Concrete sender state for the retransmission-bound witness: one
pending ack-requiring packet, sequence id 7, sent at time 0. -/
def c5Packet : Packet ℕ := ⟨2, 7, 42, true, 0⟩

/-- The pending entry tracking c5Packet. -/
def c5Entry : PendingEntry ℕ := ⟨c5Packet, 0, 0⟩

/-- The sender state holding c5Entry. -/
def c5State : NetworkProtocol ℕ :=
  { initNetworkProtocol ℕ with nextSequenceId := 8, pendingAcks := [(7, c5Entry)] }

/-- Four sweep times, each more than ackTimeout past the previous. -/
def c5Times : List ℚ := [101, 202, 303, 404]

/- ================= TimeSync (clock synchronisation) ==================== -/

/-- A time-sync request packet. -/
structure SyncRequest where
  clientSendTime : ℚ
  sequenceId : ℕ
  deriving DecidableEq

/-- A time-sync response packet. -/
structure SyncResponse where
  clientSendTime : ℚ
  serverReceiveTime : ℚ
  serverSendTime : ℚ
  serverTick : ℚ
  sequenceId : ℕ
  deriving DecidableEq

/-- The fields of the TimeSync class. -/
structure TimeSync where
  tickRate : ℚ
  tickDuration : ℚ
  syncInterval : ℚ
  rttSamples : ℕ
  serverTick : ℚ
  clockOffset : ℚ
  rttHistory : List ℚ
  smoothedRtt : ℚ
  clockDrift : ℚ
  lastSyncTime : ℚ
  lastDriftCheckTime : ℚ
  lastDriftOffset : ℚ
  syncCount : ℕ
  jitter : ℚ
  deriving DecidableEq

/-- The constructor of TimeSync with the default configuration; the
construction time seeds lastDriftCheckTime. -/
def initTimeSync (now : ℚ) : TimeSync :=
  { tickRate := 60
    tickDuration := 1000 / 60
    syncInterval := 1000
    rttSamples := 10
    serverTick := 0
    clockOffset := 0
    rttHistory := []
    smoothedRtt := 0
    clockDrift := 0
    lastSyncTime := 0
    lastDriftCheckTime := now
    lastDriftOffset := 0
    syncCount := 0
    jitter := 0 }

/-- createSyncRequest: emit a request carrying the local time and the
post-incremented sync counter. -/
def createSyncRequest (now : ℚ) (s : TimeSync) : SyncRequest × TimeSync :=
  (⟨now, s.syncCount⟩, { s with syncCount := s.syncCount + 1 })

/-- updateRttStats: push the sample into the bounded history, smooth the
RTT with weight 0.125 and recompute jitter as the mean absolute deviation
of the history. -/
def updateRttStats (rtt : ℚ) (s : TimeSync) : TimeSync :=
  let history1 := s.rttHistory ++ [rtt]
  let history2 := if s.rttSamples < history1.length then history1.tail else history1
  let alpha : ℚ := 1/8
  let smoothed := if s.smoothedRtt = 0 then rtt else alpha * rtt + (1 - alpha) * s.smoothedRtt
  let meanRtt := history2.sum / history2.length
  let variance := (history2.map (fun v => |v - meanRtt|)).sum / history2.length
  { s with rttHistory := history2, smoothedRtt := smoothed, jitter := variance }

/-- updateClockOffset: accept the measurement outright while the stored
offset is zero, otherwise blend by 0.5 for jumps above 50 ms and by 0.1
below. -/
def updateClockOffset (newOffset : ℚ) (s : TimeSync) : TimeSync :=
  if s.clockOffset = 0 then { s with clockOffset := newOffset }
  else
    let delta := newOffset - s.clockOffset
    let threshold : ℚ := 50
    let blendFactor : ℚ := if threshold < |delta| then 1/2 else 1/10
    { s with clockOffset := s.clockOffset + delta * blendFactor }

/-- updateClockDrift: recompute the drift rate only once more than ten
seconds have elapsed since the previous drift check. -/
def updateClockDrift (now currentOffset : ℚ) (s : TimeSync) : TimeSync :=
  let elapsed := (now - s.lastDriftCheckTime) / 1000
  if 10 < elapsed then
    { s with
      clockDrift := (currentOffset - s.lastDriftOffset) / elapsed
      lastDriftCheckTime := now
      lastDriftOffset := currentOffset }
  else s

/-- The raw clock-offset measurement processSyncResponse derives from a
response received at the given local time. -/
def rawOffsetOf (nowRecv : ℚ) (resp : SyncResponse) : ℚ :=
  nowRecv - (resp.serverSendTime + (nowRecv - resp.clientSendTime) / 2)

/-- processSyncResponse: measure RTT and raw offset, update the RTT
statistics, the blended clock offset, the last known server tick and
finally the drift estimate. -/
def processSyncResponse (nowRecv nowDrift : ℚ) (resp : SyncResponse) (s : TimeSync) :
    TimeSync :=
  let rtt := nowRecv - resp.clientSendTime
  let oneWayLatency := rtt / 2
  let estimatedServerTime := resp.serverSendTime + oneWayLatency
  let newOffset := nowRecv - estimatedServerTime
  let s1 := updateRttStats rtt s
  let s2 := updateClockOffset newOffset s1
  let s3 := { s2 with serverTick := resp.serverTick, lastSyncTime := nowRecv }
  updateClockDrift nowDrift newOffset s3

/-- calculateQuality: a 0 to 1 score, degraded multiplicatively by RTT
bands and by jitter bands. -/
def calculateQuality (s : TimeSync) : ℚ :=
  let score1 : ℚ :=
    if 200 < s.smoothedRtt then 1 * (3/10)
    else if 100 < s.smoothedRtt then 1 * (6/10)
    else if 50 < s.smoothedRtt then 1 * (8/10)
    else 1
  let score2 : ℚ :=
    if 50 < s.jitter then score1 * (3/10)
    else if 20 < s.jitter then score1 * (6/10)
    else if 10 < s.jitter then score1 * (8/10)
    else score1
  score2

/-- isSyncReliable: quality above one half and syncCount above three. -/
def isSyncReliable (s : TimeSync) : Bool :=
  decide ((1/2 : ℚ) < calculateQuality s) && decide (3 < s.syncCount)

/-- An externally visible TimeSync operation together with the wall-clock
reads it performs. -/
inductive SyncEvent where
  | req (now : ℚ)
  | res (resp : SyncResponse) (nowRecv nowDrift : ℚ)

/-- One TimeSync operation applied to the state. -/
def syncStep (s : TimeSync) (e : SyncEvent) : TimeSync :=
  match e with
  | .req now => (createSyncRequest now s).2
  | .res resp nowRecv nowDrift => processSyncResponse nowRecv nowDrift resp s

/-- A trace of TimeSync operations applied in order. -/
def runSync (s : TimeSync) (tr : List SyncEvent) : TimeSync :=
  tr.foldl syncStep s

/-- The number of createSyncRequest calls in a trace. -/
def countReq (tr : List SyncEvent) : ℕ :=
  tr.countP (fun e => match e with | .req _ => true | _ => false)

/-- The number of processSyncResponse calls in a trace. -/
def countRes (tr : List SyncEvent) : ℕ :=
  tr.countP (fun e => match e with | .res _ _ _ => true | _ => false)

/-- A trace consisting only of processSyncResponse events, one per listed
response together with its two wall-clock reads. -/
def responsesTrace (rs : List (SyncResponse × ℚ × ℚ)) : List SyncEvent :=
  rs.map (fun p => .res p.1 p.2.1 p.2.2)

/-- The raw offset measurements a list of responses produces. -/
def rawOffsets (rs : List (SyncResponse × ℚ × ℚ)) : List ℚ :=
  rs.map (fun p => rawOffsetOf p.2.1 p.1)

/-- One blended offset update as the specification words it: move the
offset toward the raw sample by 0.5 on jumps above 50 ms, else by 0.1. -/
def claimBlendStep (o raw : ℚ) : ℚ :=
  o + (raw - o) * (if 50 < |raw - o| then 1/2 else 1/10)

/-- Modelled from the spec sentence of claim C7: the first sample is
accepted outright, every later sample is blended. -/
def claimOffsetFold : List ℚ → ℚ
  | [] => 0
  | r :: rs => rs.foldl claimBlendStep r

/-- The offset update the source performs: a sample arriving while the
stored offset equals zero is accepted outright, any other is blended. -/
def sourceOffsetStep (o raw : ℚ) : ℚ :=
  if o = 0 then raw else claimBlendStep o raw

/-- Four sync requests and no responses. -/
def reqOnlyTrace : List SyncEvent := [.req 0, .req 1, .req 2, .req 3]

/-- A response measuring a raw offset of zero. -/
def c7FirstResp : SyncResponse := ⟨0, 0, 0, 0, 0⟩

/-- A response measuring a raw offset of ten. -/
def c7SecondResp : SyncResponse := ⟨0, 0, -10, 0, 1⟩

/-- Two responses whose raw offsets are zero and ten. -/
def c7Trace : List (SyncResponse × ℚ × ℚ) := [(c7FirstResp, 0, 0), (c7SecondResp, 0, 0)]

/-- A receiver that has already seen sequence id 0. -/
def dupState : NetworkProtocol ℕ :=
  { initNetworkProtocol ℕ with receivedSequences := [0] }

/-- A duplicate of the already-seen packet 0, requiring an ack. -/
def dupPacket : Packet ℕ := ⟨2, 0, 99, true, 0⟩

/- ================= Theorems: prediction module ========================= -/

theorem applyInputs_predictedState (l : List (Input × ℚ)) (s : ClientPrediction) :
    (applyInputs s l).predictedState =
      l.foldl (fun st p => updateState st p.1) s.predictedState := by
  induction l generalizing s with
  | nil => rfl
  | cons p t ih =>
    show (applyInputs (applyInput p.2 p.1 s) t).predictedState = _
    rw [ih]
    rfl

/-- Claim C3: for every finite sequence of inputs passed to applyInput
before any snapshot has been received, the predicted state after the
calls equals updateState folded over the inputs starting from the initial
predicted state. -/
theorem C3_pure_prediction_fold (inputs : List (Input × ℚ)) :
    (applyInputs initClientPrediction inputs).predictedState =
      List.foldl updateState initClientPrediction.predictedState (inputs.map Prod.fst) := by
  rw [List.foldl_map]
  exact applyInputs_predictedState inputs initClientPrediction

theorem calculateDivergence_eq (p : PState) (s : Snapshot) (c : ℝ) (hc : 0 ≤ c)
    (h : (p.x - s.x) * (p.x - s.x) + (p.y - s.y) * (p.y - s.y) = c ^ 2) :
    calculateDivergence p s = c := by
  unfold calculateDivergence
  dsimp only
  rw [h]
  exact Real.sqrt_sq hc

theorem onServerSnapshot_serverState (s : ClientPrediction) (snap : Snapshot) :
    (onServerSnapshot s snap).serverState = snap := by
  unfold onServerSnapshot
  dsimp only
  split <;> rfl

theorem onServerSnapshot_inputBuffer (s : ClientPrediction) (snap : Snapshot) :
    (onServerSnapshot s snap).inputBuffer =
      s.inputBuffer.filter (fun b => decide (snap.tick < b.tick)) := by
  unfold onServerSnapshot
  dsimp only
  split <;> rfl

theorem onServerSnapshot_predicted_rollback (s : ClientPrediction) (snap : Snapshot)
    (h : s.reconciliationThreshold < calculateDivergence s.predictedState snap) :
    (onServerSnapshot s snap).predictedState =
      (s.inputBuffer.filter (fun b => decide (snap.tick < b.tick))).foldl
        (fun st b => updateState st b.input) (snapshotState snap) := by
  unfold onServerSnapshot
  dsimp only
  rw [if_pos h]
  rfl

theorem onServerSnapshot_predicted_smooth (s : ClientPrediction) (snap : Snapshot)
    (h : ¬ s.reconciliationThreshold < calculateDivergence s.predictedState snap) :
    (onServerSnapshot s snap).predictedState =
      { s.predictedState with
        x := s.predictedState.x + (snap.x - s.predictedState.x) *
              smoothBlendFactor s (calculateDivergence s.predictedState snap)
        y := s.predictedState.y + (snap.y - s.predictedState.y) *
              smoothBlendFactor s (calculateDivergence s.predictedState snap) } := by
  unfold onServerSnapshot
  dsimp only
  rw [if_neg h]
  rfl

/-- Claim C8: after onServerSnapshot processes a snapshot with tick T, the
input buffer holds no entry with tick at most T, in either branch. -/
theorem C8_monotonic_pruning (s : ClientPrediction) (snap : Snapshot) :
    ((onServerSnapshot s snap).inputBuffer.all (fun b => decide (snap.tick < b.tick))) = true := by
  rw [onServerSnapshot_inputBuffer]
  simp only [List.all_eq_true, List.mem_filter, decide_eq_true_eq]
  exact fun b hb => hb.2

/-- Claim C2, amended: onServerSnapshot has no stale-packet guard; every
call, also one whose snapshot tick is below the last applied snapshot
tick, overwrites the stored authoritative state with the snapshot and
runs the usual correction and pruning. -/
theorem C2_no_stale_guard (s : ClientPrediction) (snap : Snapshot) :
    (onServerSnapshot s snap).serverState = snap :=
  onServerSnapshot_serverState s snap

/-- Claim C2 fails on the code: a snapshot with tick 3 arriving after a
snapshot with tick 5 still replaces the authoritative state and moves the
predicted state. -/
theorem C2_stale_snapshot_mutates :
    staleSnap.tick < staleState.serverState.tick ∧
    (onServerSnapshot staleState staleSnap).serverState ≠ staleState.serverState ∧
    (onServerSnapshot staleState staleSnap).predictedState ≠ staleState.predictedState := by
  have hdiv : calculateDivergence staleState.predictedState staleSnap = 10 := by
    apply calculateDivergence_eq _ _ _ (by norm_num)
    simp only [staleState, staleSnap]
    norm_num
  refine ⟨by norm_num [staleSnap, staleState], ?_, ?_⟩
  · rw [onServerSnapshot_serverState]
    simp only [staleSnap, staleState, ne_eq, Snapshot.mk.injEq]
    norm_num
  · rw [onServerSnapshot_predicted_rollback staleState staleSnap
      (by rw [hdiv]; norm_num [staleState])]
    simp only [staleState, staleSnap, snapshotState, List.filter_nil, List.foldl_nil,
      ne_eq, PState.mk.injEq]
    norm_num

/-- Claim C1, amended: when the divergence between the predicted state
and the snapshot exceeds the reconciliation threshold (the rollback
branch), the post-call predicted state equals updateState folded in tick
order over the buffered inputs with tick above the snapshot tick,
starting from the snapshot state and independent of the prior predicted
state. -/
theorem C1_rollback_replay_fold (s : ClientPrediction) (snap : Snapshot)
    (_hsorted : s.inputBuffer.Pairwise (fun a b => a.tick < b.tick))
    (h : s.reconciliationThreshold < calculateDivergence s.predictedState snap) :
    (onServerSnapshot s snap).predictedState =
      List.foldl updateState (snapshotState snap)
        ((s.inputBuffer.filter (fun b => decide (snap.tick < b.tick))).map
          (fun b => b.input)) := by
  rw [List.foldl_map]
  exact onServerSnapshot_predicted_rollback s snap h

theorem C1_rollback_replay_fold_witness :
    c1wState.inputBuffer.Pairwise (fun a b => a.tick < b.tick) ∧
    c1wState.reconciliationThreshold <
      calculateDivergence c1wState.predictedState c1wSnap ∧
    (onServerSnapshot c1wState c1wSnap).predictedState =
      List.foldl updateState (snapshotState c1wSnap)
        ((c1wState.inputBuffer.filter (fun b => decide (c1wSnap.tick < b.tick))).map
          (fun b => b.input)) := by
  have h1 : c1wState.inputBuffer.Pairwise (fun a b => a.tick < b.tick) := by
    simp [c1wState]
  have h2 : c1wState.reconciliationThreshold <
      calculateDivergence c1wState.predictedState c1wSnap := by
    have hd : calculateDivergence c1wState.predictedState c1wSnap = 5 := by
      apply calculateDivergence_eq _ _ _ (by norm_num)
      simp only [c1wState, c1wSnap]
      norm_num
    rw [hd]
    norm_num [c1wState]
  exact ⟨h1, h2, C1_rollback_replay_fold c1wState c1wSnap h1 h2⟩

/-- Claim C1 fails on the code as stated: with a snapshot at tick 0, the
buffer holding inputs at ticks 1 and 2, and a small divergence, the
smooth branch is taken and the post-call predicted state is not the fold
of updateState over the buffered inputs from the snapshot state. -/
theorem C1_smooth_branch_breaks_fold :
    (onServerSnapshot c1CounterState c1CounterSnap).predictedState.x = 4001/400 ∧
    (List.foldl updateState (snapshotState c1CounterSnap)
      ((c1CounterState.inputBuffer.filter
        (fun b => decide (c1CounterSnap.tick < b.tick))).map (fun b => b.input))).x
      = 401/20 ∧
    (4001/400 : ℝ) ≠ 401/20 := by
  have hdiv : calculateDivergence c1CounterState.predictedState c1CounterSnap = 1/20 := by
    apply calculateDivergence_eq _ _ _ (by norm_num)
    simp only [c1CounterState, c1CounterSnap]
    norm_num
  refine ⟨?_, ?_, by norm_num⟩
  · rw [onServerSnapshot_predicted_smooth c1CounterState c1CounterSnap
      (by rw [hdiv]; norm_num [c1CounterState])]
    rw [hdiv]
    simp only [c1CounterState, c1CounterSnap, smoothBlendFactor]
    rw [min_def]
    norm_num
  · simp only [c1CounterState, c1CounterSnap, snapshotState,
      List.filter_cons, List.filter_nil, decide_eq_true_eq]
    norm_num [updateState, speed]

/-- Claim C9, amended: with speed 5 and reconciliationThreshold 5, after
right-moves at ticks 0 and 1 (predicted x reaches 10) and a snapshot with
tick 0 and x equal 9.5, the divergence 0.5 is within the threshold, the
smooth branch is taken with a one percent blend factor, and the corrected
predicted x is 9.995, not a hard snap to 9.5. -/
theorem C9_blend_scenario :
    calculateDivergence c9AfterInputs.predictedState c9Snap = 1/2 ∧
    calculateDivergence c9AfterInputs.predictedState c9Snap ≤
      c9AfterInputs.reconciliationThreshold ∧
    smoothBlendFactor c9AfterInputs (1/2) = 1/100 ∧
    (onServerSnapshot c9AfterInputs c9Snap).predictedState.x = 1999/200 ∧
    (onServerSnapshot c9AfterInputs c9Snap).predictedState.x ≠ c9Snap.x := by
  have hpred : c9AfterInputs.predictedState = ⟨10, 0, 5, 0⟩ := by
    simp only [c9AfterInputs, applyInput, updateState, c9Init, initClientPrediction, speed]
    norm_num
  have hth : c9AfterInputs.reconciliationThreshold = 5 := rfl
  have hdiv : calculateDivergence c9AfterInputs.predictedState c9Snap = 1/2 := by
    apply calculateDivergence_eq _ _ _ (by norm_num)
    rw [hpred]
    simp only [c9Snap]
    norm_num
  have hblend : smoothBlendFactor c9AfterInputs (1/2) = 1/100 := by
    simp only [smoothBlendFactor, hth]
    rw [min_def]
    norm_num
  have hx : (onServerSnapshot c9AfterInputs c9Snap).predictedState.x = 1999/200 := by
    rw [onServerSnapshot_predicted_smooth c9AfterInputs c9Snap
      (by rw [hdiv, hth]; norm_num)]
    rw [hdiv]
    simp only [hpred, hblend, c9Snap]
    norm_num
  exact ⟨hdiv, by rw [hdiv, hth]; norm_num, hblend, hx, by rw [hx]; simp [c9Snap]; norm_num⟩

/-- Claim C9 fails on the code as stated: in the stipulated scenario the
blend factor is one percent, not five percent, and the corrected x is
9.995, which is not approximately 9.975. -/
theorem C9_scenario_values_differ :
    smoothBlendFactor c9AfterInputs
      (calculateDivergence c9AfterInputs.predictedState c9Snap) = 1/100 ∧
    (1/100 : ℝ) ≠ 5/100 ∧
    (onServerSnapshot c9AfterInputs c9Snap).predictedState.x = 1999/200 ∧
    ¬ |(1999/200 : ℝ) - 399/40| ≤ 1/100 := by
  have hpred : c9AfterInputs.predictedState = ⟨10, 0, 5, 0⟩ := by
    simp only [c9AfterInputs, applyInput, updateState, c9Init, initClientPrediction, speed]
    norm_num
  have hth : c9AfterInputs.reconciliationThreshold = 5 := rfl
  have hdiv : calculateDivergence c9AfterInputs.predictedState c9Snap = 1/2 := by
    apply calculateDivergence_eq _ _ _ (by norm_num)
    rw [hpred]
    simp only [c9Snap]
    norm_num
  have hblend : smoothBlendFactor c9AfterInputs (1/2) = 1/100 := by
    simp only [smoothBlendFactor, hth]
    rw [min_def]
    norm_num
  have hx : (onServerSnapshot c9AfterInputs c9Snap).predictedState.x = 1999/200 := by
    rw [onServerSnapshot_predicted_smooth c9AfterInputs c9Snap
      (by rw [hdiv, hth]; norm_num)]
    rw [hdiv]
    simp only [hpred, hblend, c9Snap]
    norm_num
  refine ⟨by rw [hdiv]; exact hblend, by norm_num, hx, ?_⟩
  rw [abs_le]
  norm_num

/-- Claim C10: when the divergence is at most the reconciliation
threshold (the smooth branch), the velocity fields of the predicted state
keep their pre-call values. -/
theorem C10_smooth_preserves_velocity (s : ClientPrediction) (snap : Snapshot)
    (h : calculateDivergence s.predictedState snap ≤ s.reconciliationThreshold) :
    (onServerSnapshot s snap).predictedState.velocityX = s.predictedState.velocityX ∧
    (onServerSnapshot s snap).predictedState.velocityY = s.predictedState.velocityY := by
  rw [onServerSnapshot_predicted_smooth s snap (not_lt.mpr h)]
  exact ⟨rfl, rfl⟩

theorem C10_smooth_preserves_velocity_witness :
    calculateDivergence c10State.predictedState c10Snap ≤
      c10State.reconciliationThreshold ∧
    (onServerSnapshot c10State c10Snap).predictedState.velocityX = 3 ∧
    (onServerSnapshot c10State c10Snap).predictedState.velocityY = 4 := by
  have h : calculateDivergence c10State.predictedState c10Snap ≤
      c10State.reconciliationThreshold := by
    have hd : calculateDivergence c10State.predictedState c10Snap = 0 := by
      apply calculateDivergence_eq _ _ _ le_rfl
      simp only [c10State, c10Snap, initClientPrediction]
      norm_num
    rw [hd]
    norm_num [c10State, initClientPrediction]
  have hv := C10_smooth_preserves_velocity c10State c10Snap h
  refine ⟨h, ?_, ?_⟩
  · rw [hv.1]; rfl
  · rw [hv.2]; rfl

/- ================= Theorems: TimeSync ================================== -/

theorem processSyncResponse_syncCount (nr nd : ℚ) (resp : SyncResponse) (s : TimeSync) :
    (processSyncResponse nr nd resp s).syncCount = s.syncCount := by
  unfold processSyncResponse updateClockDrift updateClockOffset updateRttStats
  dsimp only
  split_ifs <;> rfl

theorem processSyncResponse_clockOffset (nr nd : ℚ) (resp : SyncResponse) (s : TimeSync) :
    (processSyncResponse nr nd resp s).clockOffset =
      sourceOffsetStep s.clockOffset (rawOffsetOf nr resp) := by
  unfold processSyncResponse updateClockDrift updateClockOffset updateRttStats
    sourceOffsetStep claimBlendStep rawOffsetOf
  dsimp only
  split_ifs <;> rfl

theorem runSync_syncCount (tr : List SyncEvent) (s : TimeSync) :
    (runSync s tr).syncCount = s.syncCount + countReq tr := by
  induction tr generalizing s with
  | nil => rfl
  | cons e t ih =>
    show (runSync (syncStep s e) t).syncCount = _
    rw [ih]
    cases e with
    | req now =>
      simp only [syncStep, createSyncRequest, countReq, List.countP_cons, if_true,
        decide_eq_true_eq]
      omega
    | res resp nr nd =>
      simp only [syncStep, processSyncResponse_syncCount, countReq, List.countP_cons,
        Bool.false_eq_true, if_false, decide_eq_true_eq]
      omega

theorem runSync_responses_clockOffset (rs : List (SyncResponse × ℚ × ℚ)) (s : TimeSync) :
    (runSync s (responsesTrace rs)).clockOffset =
      (rawOffsets rs).foldl sourceOffsetStep s.clockOffset := by
  induction rs generalizing s with
  | nil => rfl
  | cons p t ih =>
    show (runSync (syncStep s _) (responsesTrace t)).clockOffset = _
    rw [ih]
    simp only [rawOffsets, List.map_cons, List.foldl_cons, syncStep,
      processSyncResponse_clockOffset]

/-- Claim C6, amended: isSyncReliable returns true exactly when the
quality score exceeds one half and at least four sync requests have been
created; the counter counts createSyncRequest calls, not processed
responses. -/
theorem C6_isSyncReliable_iff (t0 : ℚ) (tr : List SyncEvent) :
    isSyncReliable (runSync (initTimeSync t0) tr) = true ↔
      ((1/2 : ℚ) < calculateQuality (runSync (initTimeSync t0) tr) ∧
        4 ≤ countReq tr) := by
  rw [isSyncReliable]
  simp only [Bool.and_eq_true, decide_eq_true_eq]
  rw [runSync_syncCount]
  constructor
  · rintro ⟨h1, h2⟩
    refine ⟨h1, ?_⟩
    simp only [initTimeSync] at h2
    omega
  · rintro ⟨h1, h2⟩
    refine ⟨h1, ?_⟩
    simp only [initTimeSync]
    omega

/-- Claim C6 fails on the code as stated: after four createSyncRequest
calls and zero processed responses, isSyncReliable already returns true,
so reliability is not equivalent to four processed sync responses. -/
theorem C6_reliable_without_responses :
    ¬ (isSyncReliable (runSync (initTimeSync 0) reqOnlyTrace) = true ↔
        ((1/2 : ℚ) < calculateQuality (runSync (initTimeSync 0) reqOnlyTrace) ∧
          4 ≤ countRes reqOnlyTrace)) := by
  have h1 : isSyncReliable (runSync (initTimeSync 0) reqOnlyTrace) = true := by
    norm_num [isSyncReliable, reqOnlyTrace, runSync, syncStep, createSyncRequest,
      initTimeSync, calculateQuality]
  have h2 : countRes reqOnlyTrace = 0 := by
    norm_num [countRes, reqOnlyTrace]
  intro hiff
  have := (hiff.mp h1).2
  omega

/-- Claim C7, amended: the clock offset after any sequence of processed
responses equals the fold of the source update over the raw offsets,
where a sample arriving while the stored offset equals zero (the first
sample in particular) is assigned outright and any other sample is
blended by 0.5 on differences above 50 ms and by 0.1 otherwise. -/
theorem C7_clock_offset_blend (t0 : ℚ) (rs : List (SyncResponse × ℚ × ℚ)) :
    (runSync (initTimeSync t0) (responsesTrace rs)).clockOffset =
      (rawOffsets rs).foldl sourceOffsetStep 0 := by
  rw [runSync_responses_clockOffset]
  rfl

/-- Claim C7 fails on the code as stated: after a first sample of zero, a
second sample of ten is again assigned outright (the stored offset is
still zero), while first-sample-then-blend semantics would give one. -/
theorem C7_zero_offset_reblended :
    rawOffsets c7Trace = [0, 10] ∧
    (runSync (initTimeSync 0) (responsesTrace c7Trace)).clockOffset = 10 ∧
    claimOffsetFold (rawOffsets c7Trace) = 1 ∧
    (runSync (initTimeSync 0) (responsesTrace c7Trace)).clockOffset ≠
      claimOffsetFold (rawOffsets c7Trace) := by
  have h1 : rawOffsets c7Trace = [0, 10] := by
    norm_num [rawOffsets, c7Trace, rawOffsetOf, c7FirstResp, c7SecondResp]
  have h2 : (runSync (initTimeSync 0) (responsesTrace c7Trace)).clockOffset = 10 := by
    rw [runSync_responses_clockOffset, h1]
    norm_num [sourceOffsetStep, claimBlendStep, initTimeSync]
  have h3 : claimOffsetFold (rawOffsets c7Trace) = 1 := by
    rw [h1]
    norm_num [claimOffsetFold, claimBlendStep]
  refine ⟨h1, h2, h3, ?_⟩
  rw [h2, h3]
  norm_num

/- ================= Theorems: NetworkProtocol (C4) ====================== -/

/-- Claim C4, amended: a repeated call to processPacket with a packet
whose sequence id is already in the seen-set changes no receiver state
and returns null; in particular no ack is produced again, even for a
packet that requires one. -/
theorem C4_duplicate_dropped {α : Type} (s : NetworkProtocol α) (p : Packet α)
    (now : ℚ) (h : p.sequenceId ∈ s.receivedSequences) :
    processPacket now p s = (s, none) := by
  unfold processPacket
  rw [if_pos h]

theorem C4_duplicate_dropped_witness :
    dupPacket.sequenceId ∈ dupState.receivedSequences ∧
    processPacket 5 dupPacket dupState = (dupState, none) :=
  ⟨by decide, C4_duplicate_dropped dupState dupPacket 5 (by decide)⟩

/-- Claim C4 fails on the code as stated: the duplicate of an
ack-requiring packet yields null, so no ack packet is produced again. -/
theorem C4_duplicate_no_ack_resent :
    dupPacket.requiresAck = true ∧
    dupPacket.sequenceId ∈ dupState.receivedSequences ∧
    (processPacket 5 dupPacket dupState).2 = none :=
  ⟨rfl, by decide, rfl⟩

/- ================= Theorems: retransmission bound (C5) ================= -/

theorem sweepList_mem_src {α : Type} (now timeout : ℚ) (maxR : ℕ)
    (l : List (ℕ × PendingEntry α)) :
    ∀ kv ∈ (sweepList now timeout maxR l).1,
      ∃ kv₀ ∈ l, kv.1 = kv₀.1 ∧ kv.2.packet = kv₀.2.packet := by
  induction l with
  | nil => simp [sweepList]
  | cons hd rest ih =>
    intro kv hkv
    simp only [sweepList] at hkv
    split_ifs at hkv with h1 h2
    · simp only [List.mem_cons] at hkv
      rcases hkv with hkv | hkv
      · exact ⟨hd, List.mem_cons_self hd rest, by rw [hkv], by rw [hkv]⟩
      · obtain ⟨kv₀, hm, he⟩ := ih kv hkv
        exact ⟨kv₀, List.mem_cons_of_mem hd hm, he⟩
    · obtain ⟨kv₀, hm, he⟩ := ih kv hkv
      exact ⟨kv₀, List.mem_cons_of_mem hd hm, he⟩
    · simp only [List.mem_cons] at hkv
      rcases hkv with hkv | hkv
      · exact ⟨hd, List.mem_cons_self hd rest, by rw [hkv], by rw [hkv]⟩
      · obtain ⟨kv₀, hm, he⟩ := ih kv hkv
        exact ⟨kv₀, List.mem_cons_of_mem hd hm, he⟩

theorem sweepList_keys_sublist {α : Type} (now timeout : ℚ) (maxR : ℕ)
    (l : List (ℕ × PendingEntry α)) :
    ((sweepList now timeout maxR l).1.map Prod.fst).Sublist (l.map Prod.fst) := by
  induction l with
  | nil => simp [sweepList]
  | cons hd rest ih =>
    simp only [sweepList]
    split_ifs with h1 h2
    · exact List.Sublist.cons₂ hd.1 ih
    · exact List.Sublist.cons hd.1 ih
    · exact List.Sublist.cons₂ hd.1 ih

theorem sweepList_out_src {α : Type} (now timeout : ℚ) (maxR : ℕ)
    (l : List (ℕ × PendingEntry α)) :
    ∀ q ∈ (sweepList now timeout maxR l).2.1, ∃ kv ∈ l, q = kv.2.packet := by
  induction l with
  | nil => simp [sweepList]
  | cons hd rest ih =>
    intro q hq
    simp only [sweepList] at hq
    split_ifs at hq with h1 h2
    · simp only [List.mem_cons] at hq
      rcases hq with hq | hq
      · exact ⟨hd, List.mem_cons_self hd rest, hq⟩
      · obtain ⟨kv, hm, he⟩ := ih q hq
        exact ⟨kv, List.mem_cons_of_mem hd hm, he⟩
    · obtain ⟨kv, hm, he⟩ := ih q hq
      exact ⟨kv, List.mem_cons_of_mem hd hm, he⟩
    · obtain ⟨kv, hm, he⟩ := ih q hq
      exact ⟨kv, List.mem_cons_of_mem hd hm, he⟩

theorem sweepList_inv_preserved {α : Type} (now timeout : ℚ) (maxR : ℕ)
    (l : List (ℕ × PendingEntry α)) (hinv : PendingInv l) :
    PendingInv (sweepList now timeout maxR l).1 := by
  constructor
  · exact List.Nodup.sublist (sweepList_keys_sublist now timeout maxR l) hinv.1
  · intro kv hkv
    obtain ⟨kv₀, hm, h1, h2⟩ := sweepList_mem_src now timeout maxR l kv hkv
    rw [h1, h2]
    exact hinv.2 kv₀ hm

theorem sweepList_match_preserved {α : Type} (now timeout : ℚ) (maxR : ℕ)
    (l : List (ℕ × PendingEntry α))
    (hmatch : ∀ kv ∈ l, kv.2.packet.sequenceId = kv.1) :
    ∀ kv ∈ (sweepList now timeout maxR l).1, kv.2.packet.sequenceId = kv.1 := by
  intro kv hkv
  obtain ⟨kv₀, hm, h1, h2⟩ := sweepList_mem_src now timeout maxR l kv hkv
  rw [h1, h2]
  exact hmatch kv₀ hm

theorem sweepList_absent {α : Type} (now timeout : ℚ) (maxR : ℕ)
    (l : List (ℕ × PendingEntry α)) (sid : ℕ)
    (hmatch : ∀ kv ∈ l, kv.2.packet.sequenceId = kv.1)
    (habs : sid ∉ l.map Prod.fst) :
    sid ∉ (sweepList now timeout maxR l).1.map Prod.fst ∧
      (sweepList now timeout maxR l).2.1.countP (fun q => q.sequenceId == sid) = 0 := by
  constructor
  · intro hmem
    exact habs (List.Sublist.mem hmem (sweepList_keys_sublist now timeout maxR l))
  · rw [List.countP_eq_zero]
    intro q hq
    obtain ⟨kv, hm, he⟩ := sweepList_out_src now timeout maxR l q hq
    have hk : kv.1 ≠ sid := by
      intro h
      exact habs (h ▸ List.mem_map_of_mem Prod.fst hm)
    simp only [he, hmatch kv hm, beq_iff_eq]
    exact hk

theorem sweepList_tracked_emit {α : Type} (now timeout : ℚ) (maxR : ℕ)
    (l : List (ℕ × PendingEntry α)) (sid : ℕ) (pe : PendingEntry α)
    (hinv : PendingInv l) (hmem : (sid, pe) ∈ l)
    (hdue : timeout < now - pe.timestamp) (hret : pe.retries < maxR) :
    (sid, (⟨pe.packet, now, pe.retries + 1⟩ : PendingEntry α)) ∈
        (sweepList now timeout maxR l).1 ∧
      (sweepList now timeout maxR l).2.1.countP (fun q => q.sequenceId == sid) = 1 := by
  induction l with
  | nil => cases hmem
  | cons hd rest ih =>
    obtain ⟨hnd, hmatch⟩ := hinv
    simp only [List.map_cons, List.nodup_cons] at hnd
    rcases List.mem_cons.mp hmem with heq | htail
    · subst heq
      have habs : sid ∉ rest.map Prod.fst := hnd.1
      have habs2 := sweepList_absent now timeout maxR rest sid
        (fun kv hkv => hmatch kv (List.mem_cons_of_mem _ hkv)) habs
      simp only [sweepList]
      rw [if_pos hdue, if_pos hret]
      constructor
      · exact List.mem_cons_self _ _
      · rw [List.countP_cons]
        have hsid : pe.packet.sequenceId = sid := hmatch (sid, pe) (List.mem_cons_self _ _)
        simp only [hsid, beq_self_eq_true, if_pos, habs2.2]
    · have hne : hd.1 ≠ sid := by
        intro h
        exact hnd.1 (h ▸ List.mem_map_of_mem Prod.fst htail)
      have ihr := ih ⟨hnd.2, fun kv hkv => hmatch kv (List.mem_cons_of_mem _ hkv)⟩ htail
      simp only [sweepList]
      split_ifs with h1 h2
      · refine ⟨List.mem_cons_of_mem _ ihr.1, ?_⟩
        rw [List.countP_cons]
        have : (hd.2.packet.sequenceId == sid) = false := by
          simp only [beq_eq_false_iff_ne, ne_eq]
          rw [hmatch hd (List.mem_cons_self _ _)]
          exact hne
        rw [this]
        simp [ihr.2]
      · exact ⟨ihr.1, ihr.2⟩
      · exact ⟨List.mem_cons_of_mem _ ihr.1, ihr.2⟩

theorem sweepList_tracked_evict {α : Type} (now timeout : ℚ) (maxR : ℕ)
    (l : List (ℕ × PendingEntry α)) (sid : ℕ) (pe : PendingEntry α)
    (hinv : PendingInv l) (hmem : (sid, pe) ∈ l)
    (hdue : timeout < now - pe.timestamp) (hret : ¬ pe.retries < maxR) :
    sid ∉ (sweepList now timeout maxR l).1.map Prod.fst ∧
      (sweepList now timeout maxR l).2.1.countP (fun q => q.sequenceId == sid) = 0 := by
  induction l with
  | nil => cases hmem
  | cons hd rest ih =>
    obtain ⟨hnd, hmatch⟩ := hinv
    simp only [List.map_cons, List.nodup_cons] at hnd
    rcases List.mem_cons.mp hmem with heq | htail
    · subst heq
      have habs : sid ∉ rest.map Prod.fst := hnd.1
      have habs2 := sweepList_absent now timeout maxR rest sid
        (fun kv hkv => hmatch kv (List.mem_cons_of_mem _ hkv)) habs
      simp only [sweepList]
      rw [if_pos hdue, if_neg hret]
      exact habs2
    · have hne : hd.1 ≠ sid := by
        intro h
        exact hnd.1 (h ▸ List.mem_map_of_mem Prod.fst htail)
      have ihr := ih ⟨hnd.2, fun kv hkv => hmatch kv (List.mem_cons_of_mem _ hkv)⟩ htail
      simp only [sweepList]
      split_ifs with h1 h2
      · constructor
        · simp only [List.map_cons, List.mem_cons]
          rintro (h | h)
          · exact hne h.symm
          · exact ihr.1 h
        · rw [List.countP_cons]
          have : (hd.2.packet.sequenceId == sid) = false := by
            simp only [beq_eq_false_iff_ne, ne_eq]
            rw [hmatch hd (List.mem_cons_self _ _)]
            exact hne
          rw [this]
          simp [ihr.2]
      · exact ⟨ihr.1, ihr.2⟩
      · constructor
        · simp only [List.map_cons, List.mem_cons]
          rintro (h | h)
          · exact hne h.symm
          · exact ihr.1 h
        · exact ihr.2

theorem getRetransmissions_maxRetries {α : Type} (now : ℚ) (s : NetworkProtocol α) :
    (getRetransmissions now s).1.maxRetries = s.maxRetries := rfl

theorem getRetransmissions_ackTimeout {α : Type} (now : ℚ) (s : NetworkProtocol α) :
    (getRetransmissions now s).1.ackTimeout = s.ackTimeout := rfl

theorem getRetransmissions_pendingAcks {α : Type} (now : ℚ) (s : NetworkProtocol α) :
    (getRetransmissions now s).1.pendingAcks =
      (sweepList now s.ackTimeout s.maxRetries s.pendingAcks).1 := rfl

theorem getRetransmissions_out {α : Type} (now : ℚ) (s : NetworkProtocol α) :
    (getRetransmissions now s).2 =
      (sweepList now s.ackTimeout s.maxRetries s.pendingAcks).2.1 := rfl

theorem runSweeps_tracked {α : Type} (ts : List ℚ) :
    ∀ (s : NetworkProtocol α) (sid : ℕ) (pkt : Packet α) (t : ℚ) (r : ℕ),
      PendingInv s.pendingAcks →
      (sid, (⟨pkt, t, r⟩ : PendingEntry α)) ∈ s.pendingAcks →
      r + ts.length ≤ s.maxRetries →
      List.Chain (fun a b => s.ackTimeout < b - a) t ts →
      PendingInv (runSweeps ts s).1.pendingAcks ∧
      (runSweeps ts s).1.maxRetries = s.maxRetries ∧
      (runSweeps ts s).1.ackTimeout = s.ackTimeout ∧
      (sid, (⟨pkt, ts.getLastD t, r + ts.length⟩ : PendingEntry α)) ∈
        (runSweeps ts s).1.pendingAcks ∧
      ∀ out ∈ (runSweeps ts s).2, out.countP (fun q => q.sequenceId == sid) = 1 := by
  induction ts with
  | nil =>
    intro s sid pkt t r hinv hmem hle _
    refine ⟨hinv, rfl, rfl, ?_, by simp [runSweeps]⟩
    simpa [runSweeps] using hmem
  | cons t1 rest ih =>
    intro s sid pkt t r hinv hmem hle hchain
    rw [List.chain_cons] at hchain
    have hret : r < s.maxRetries := by
      simp only [List.length_cons] at hle
      omega
    have hemit := sweepList_tracked_emit t1 s.ackTimeout s.maxRetries s.pendingAcks sid
      ⟨pkt, t, r⟩ hinv hmem hchain.1 hret
    set s1 := (getRetransmissions t1 s).1 with hs1
    have hinv1 : PendingInv s1.pendingAcks := by
      rw [hs1, getRetransmissions_pendingAcks]
      exact sweepList_inv_preserved t1 s.ackTimeout s.maxRetries s.pendingAcks hinv
    have hmem1 : (sid, (⟨pkt, t1, r + 1⟩ : PendingEntry α)) ∈ s1.pendingAcks := by
      rw [hs1, getRetransmissions_pendingAcks]
      exact hemit.1
    have hle1 : (r + 1) + rest.length ≤ s1.maxRetries := by
      rw [hs1, getRetransmissions_maxRetries]
      simp only [List.length_cons] at hle
      omega
    have hchain1 : List.Chain (fun a b => s1.ackTimeout < b - a) t1 rest := by
      rw [hs1, getRetransmissions_ackTimeout]
      exact hchain.2
    have ihr := ih s1 sid pkt t1 (r + 1) hinv1 hmem1 hle1 hchain1
    have hrun : runSweeps (t1 :: rest) s =
        ((runSweeps rest s1).1, (getRetransmissions t1 s).2 :: (runSweeps rest s1).2) := rfl
    rw [hrun]
    refine ⟨ihr.1, ?_, ?_, ?_, ?_⟩
    · rw [ihr.2.1, hs1, getRetransmissions_maxRetries]
    · rw [ihr.2.2.1, hs1, getRetransmissions_ackTimeout]
    · rw [List.getLastD_cons, List.length_cons,
        show r + (rest.length + 1) = (r + 1) + rest.length from by omega]
      exact ihr.2.2.2.1
    · intro out hout
      rcases List.mem_cons.mp hout with h | h
      · rw [h, getRetransmissions_out]
        exact hemit.2
      · exact ihr.2.2.2.2 out h

theorem runSweeps_absent {α : Type} (ts : List ℚ) :
    ∀ (s : NetworkProtocol α) (sid : ℕ),
      (∀ kv ∈ s.pendingAcks, kv.2.packet.sequenceId = kv.1) →
      sid ∉ s.pendingAcks.map Prod.fst →
      (∀ kv ∈ (runSweeps ts s).1.pendingAcks, kv.2.packet.sequenceId = kv.1) ∧
      sid ∉ (runSweeps ts s).1.pendingAcks.map Prod.fst ∧
      ∀ out ∈ (runSweeps ts s).2, out.countP (fun q => q.sequenceId == sid) = 0 := by
  induction ts with
  | nil =>
    intro s sid hmatch habs
    exact ⟨hmatch, habs, by simp [runSweeps]⟩
  | cons t1 rest ih =>
    intro s sid hmatch habs
    have habs1 := sweepList_absent t1 s.ackTimeout s.maxRetries s.pendingAcks sid hmatch habs
    set s1 := (getRetransmissions t1 s).1 with hs1
    have hmatch1 : ∀ kv ∈ s1.pendingAcks, kv.2.packet.sequenceId = kv.1 := by
      rw [hs1, getRetransmissions_pendingAcks]
      exact sweepList_match_preserved t1 s.ackTimeout s.maxRetries s.pendingAcks hmatch
    have habs1' : sid ∉ s1.pendingAcks.map Prod.fst := by
      rw [hs1, getRetransmissions_pendingAcks]
      exact habs1.1
    have ihr := ih s1 sid hmatch1 habs1'
    have hrun : runSweeps (t1 :: rest) s =
        ((runSweeps rest s1).1, (getRetransmissions t1 s).2 :: (runSweeps rest s1).2) := rfl
    rw [hrun]
    refine ⟨ihr.1, ihr.2.1, ?_⟩
    intro out hout
    rcases List.mem_cons.mp hout with h | h
    · rw [h, getRetransmissions_out]
      exact habs1.2
    · exact ihr.2.2 out h

theorem runSweeps_single {α : Type} (ts : List ℚ) :
    ∀ (s : NetworkProtocol α) (sid : ℕ) (pkt : Packet α) (t : ℚ) (r : ℕ),
      s.pendingAcks = [(sid, (⟨pkt, t, r⟩ : PendingEntry α))] →
      r + ts.length ≤ s.maxRetries →
      List.Chain (fun a b => s.ackTimeout < b - a) t ts →
      (runSweeps ts s).1 =
        { s with pendingAcks := [(sid, (⟨pkt, ts.getLastD t, r + ts.length⟩ : PendingEntry α))] } := by
  induction ts with
  | nil =>
    intro s sid pkt t r hp _ _
    simp [runSweeps, ← hp]
  | cons t1 rest ih =>
    intro s sid pkt t r hp hle hchain
    rw [List.chain_cons] at hchain
    have hret : r < s.maxRetries := by
      simp only [List.length_cons] at hle
      omega
    have hstep : (getRetransmissions t1 s).1 =
        { s with pendingAcks := [(sid, (⟨pkt, t1, r + 1⟩ : PendingEntry α))] } := by
      unfold getRetransmissions
      rw [hp]
      simp only [sweepList]
      rw [if_pos hchain.1, if_pos hret]
      simp [sweepList]
    have hrun : runSweeps (t1 :: rest) s =
        ((runSweeps rest (getRetransmissions t1 s).1).1,
          (getRetransmissions t1 s).2 :: (runSweeps rest (getRetransmissions t1 s).1).2) := rfl
    rw [hrun]
    have ihr := ih (getRetransmissions t1 s).1 sid pkt t1 (r + 1)
      (by rw [hstep]) (by rw [hstep]; simp only [List.length_cons] at hle ⊢; omega)
      (by rw [hstep]; exact hchain.2)
    rw [ihr, hstep, List.getLastD_cons, List.length_cons,
      show r + (rest.length + 1) = (r + 1) + rest.length from by omega]

theorem runSweeps_append {α : Type} (l1 l2 : List ℚ) (s : NetworkProtocol α) :
    runSweeps (l1 ++ l2) s =
      ((runSweeps l2 (runSweeps l1 s).1).1,
        (runSweeps l1 s).2 ++ (runSweeps l2 (runSweeps l1 s).1).2) := by
  induction l1 generalizing s with
  | nil => simp [runSweeps]
  | cons t1 rest ih =>
    show runSweeps (t1 :: (rest ++ l2)) s = _
    have h1 : runSweeps (t1 :: (rest ++ l2)) s =
        ((runSweeps (rest ++ l2) (getRetransmissions t1 s).1).1,
          (getRetransmissions t1 s).2 ::
            (runSweeps (rest ++ l2) (getRetransmissions t1 s).1).2) := rfl
    have h2 : runSweeps (t1 :: rest) s =
        ((runSweeps rest (getRetransmissions t1 s).1).1,
          (getRetransmissions t1 s).2 ::
            (runSweeps rest (getRetransmissions t1 s).1).2) := rfl
    rw [h1, h2, ih]
    simp [List.cons_append]

theorem runSweeps_length {α : Type} (ts : List ℚ) (s : NetworkProtocol α) :
    (runSweeps ts s).2.length = ts.length := by
  induction ts generalizing s with
  | nil => rfl
  | cons t1 rest ih =>
    show ((getRetransmissions t1 s).2 :: (runSweeps rest _).2).length = rest.length + 1
    simp [ih]

theorem chain_append_last {R : ℚ → ℚ → Prop} :
    ∀ (l : List ℚ) (a b : ℚ), List.Chain R a (l ++ [b]) →
      List.Chain R a l ∧ R (l.getLastD a) b := by
  intro l
  induction l with
  | nil =>
    intro a b h
    rw [List.nil_append, List.chain_cons] at h
    exact ⟨List.Chain.nil, h.1⟩
  | cons c rest ih =>
    intro a b h
    rw [List.cons_append, List.chain_cons] at h
    obtain ⟨h1, h2⟩ := ih c b h.2
    refine ⟨List.chain_cons.mpr ⟨h.1, h1⟩, ?_⟩
    rw [List.getLastD_cons]
    exact h2

/-- Claim C5: an ack-requiring packet whose ack never arrives is returned
for resend by exactly maxRetries timed-out sweeps; the next timed-out
sweep evicts the pending entry (incrementing packetsLost once when it is
the only pending entry), and no later sweep ever returns it again. -/
theorem C5_retransmission_bound {α : Type} (s : NetworkProtocol α) (sid : ℕ)
    (pe : PendingEntry α) (times : List ℚ)
    (hinv : PendingInv s.pendingAcks)
    (hmem : (sid, pe) ∈ s.pendingAcks)
    (hretries : pe.retries = 0)
    (hlen : times.length = s.maxRetries + 1)
    (hchain : List.Chain (fun a b => s.ackTimeout < b - a) pe.timestamp times) :
    (∀ i < s.maxRetries,
      ((runSweeps times s).2.getD i []).countP (fun q => q.sequenceId == sid) = 1) ∧
    ((runSweeps times s).2.getD s.maxRetries []).countP (fun q => q.sequenceId == sid) = 0 ∧
    sid ∉ (runSweeps times s).1.pendingAcks.map Prod.fst ∧
    (∀ future : List ℚ, ∀ out ∈ (runSweeps future (runSweeps times s).1).2,
      out.countP (fun q => q.sequenceId == sid) = 0) ∧
    (s.pendingAcks = [(sid, pe)] →
      (runSweeps times s).1.packetsLost = s.packetsLost + 1) := by
  obtain ⟨pkt, t0, r0⟩ := pe
  simp only at hretries hchain
  subst hretries
  have hne : times ≠ [] := by
    intro h
    rw [h] at hlen
    simp at hlen
  have hdecomp : times = times.dropLast ++ [times.getLast hne] :=
    (List.dropLast_append_getLast hne).symm
  have hlen0 : times.dropLast.length = s.maxRetries := by
    rw [List.length_dropLast, hlen]
    omega
  rw [hdecomp] at hchain
  obtain ⟨hchain0, hlast⟩ := chain_append_last times.dropLast t0 (times.getLast hne) hchain
  have tracked := runSweeps_tracked times.dropLast s sid pkt t0 0 hinv hmem
    (by omega) hchain0
  obtain ⟨hinv1, hmax1, htime1, hmem1, houts1⟩ := tracked
  have hdue1 : (runSweeps times.dropLast s).1.ackTimeout <
      times.getLast hne -
        (⟨pkt, times.dropLast.getLastD t0, 0 + times.dropLast.length⟩ :
          PendingEntry α).timestamp := by
    rw [htime1]
    exact hlast
  have hret1 : ¬ (⟨pkt, times.dropLast.getLastD t0, 0 + times.dropLast.length⟩ :
      PendingEntry α).retries < (runSweeps times.dropLast s).1.maxRetries := by
    simp only [hmax1]
    omega
  have evict := sweepList_tracked_evict (times.getLast hne)
    (runSweeps times.dropLast s).1.ackTimeout (runSweeps times.dropLast s).1.maxRetries
    (runSweeps times.dropLast s).1.pendingAcks sid
    ⟨pkt, times.dropLast.getLastD t0, 0 + times.dropLast.length⟩ hinv1 hmem1 hdue1 hret1
  have hsplit := runSweeps_append times.dropLast [times.getLast hne] s
  have hsingleSweep : runSweeps [times.getLast hne] (runSweeps times.dropLast s).1 =
      ((getRetransmissions (times.getLast hne) (runSweeps times.dropLast s).1).1,
        [(getRetransmissions (times.getLast hne) (runSweeps times.dropLast s).1).2]) := rfl
  have houts_len : (runSweeps times.dropLast s).2.length = s.maxRetries := by
    rw [runSweeps_length, hlen0]
  refine ⟨?_, ?_, ?_, ?_, ?_⟩
  · intro i hi
    rw [hdecomp, hsplit]
    simp only
    rw [List.getD_append _ _ _ _ (by rw [houts_len]; exact hi)]
    have hlt : i < (runSweeps times.dropLast s).2.length := by
      rw [houts_len]
      exact hi
    rw [List.getD_eq_getElem _ _ hlt]
    exact houts1 _ (List.getElem_mem hlt)
  · rw [hdecomp, hsplit]
    simp only
    rw [List.getD_append_right _ _ _ _ (by rw [houts_len])]
    rw [houts_len, hsingleSweep]
    simp only [Nat.sub_self, List.getD_cons_zero, getRetransmissions_out]
    exact evict.2
  · rw [hdecomp, hsplit]
    simp only [hsingleSweep, getRetransmissions_pendingAcks]
    exact evict.1
  · intro future out hout
    have hmatch2 : ∀ kv ∈ (runSweeps times s).1.pendingAcks,
        kv.2.packet.sequenceId = kv.1 := by
      rw [hdecomp, hsplit]
      simp only [hsingleSweep, getRetransmissions_pendingAcks]
      exact sweepList_match_preserved _ _ _ _ hinv1.2
    have habs2 : sid ∉ (runSweeps times s).1.pendingAcks.map Prod.fst := by
      rw [hdecomp, hsplit]
      simp only [hsingleSweep, getRetransmissions_pendingAcks]
      exact evict.1
    exact (runSweeps_absent future (runSweeps times s).1 sid hmatch2 habs2).2.2 out hout
  · intro hsingle
    have hsing1 := runSweeps_single times.dropLast s sid pkt t0 0 hsingle (by omega) hchain0
    have hsw : sweepList (times.getLast hne) s.ackTimeout s.maxRetries
        [(sid, (⟨pkt, times.dropLast.getLastD t0, 0 + times.dropLast.length⟩ :
          PendingEntry α))] = ([], [], 1) := by
      simp only [sweepList]
      rw [if_pos hlast, if_neg (by omega)]
    rw [hdecomp, hsplit]
    simp only [hsingleSweep]
    rw [hsing1]
    unfold getRetransmissions
    dsimp only
    rw [hsw]

theorem C5_retransmission_bound_witness :
    PendingInv c5State.pendingAcks ∧
    (7, c5Entry) ∈ c5State.pendingAcks ∧
    c5Entry.retries = 0 ∧
    c5Times.length = c5State.maxRetries + 1 ∧
    List.Chain (fun a b => c5State.ackTimeout < b - a) c5Entry.timestamp c5Times ∧
    ((runSweeps c5Times c5State).2.getD 0 []).countP (fun q => q.sequenceId == 7) = 1 ∧
    ((runSweeps c5Times c5State).2.getD c5State.maxRetries []).countP
      (fun q => q.sequenceId == 7) = 0 ∧
    (runSweeps c5Times c5State).1.packetsLost = c5State.packetsLost + 1 := by
  have h1 : PendingInv c5State.pendingAcks := by
    constructor
    · simp [c5State, initNetworkProtocol]
    · intro kv hkv
      simp only [c5State, initNetworkProtocol, List.mem_singleton] at hkv
      rw [hkv]
      rfl
  have h2 : (7, c5Entry) ∈ c5State.pendingAcks := by
    simp [c5State, initNetworkProtocol]
  have h3 : c5Entry.retries = 0 := rfl
  have h4 : c5Times.length = c5State.maxRetries + 1 := rfl
  have h5 : List.Chain (fun a b => c5State.ackTimeout < b - a) c5Entry.timestamp c5Times := by
    simp only [c5Times, List.chain_cons, List.Chain.nil, and_true]
    norm_num [c5State, c5Entry, initNetworkProtocol]
  have main := C5_retransmission_bound c5State 7 c5Entry c5Times h1 h2 h3 h4 h5
  refine ⟨h1, h2, h3, h4, h5, ?_, ?_, ?_⟩
  · exact main.1 0 (by norm_num [c5State, initNetworkProtocol])
  · exact main.2.1
  · exact main.2.2.2.2 rfl

end Netcode
